import Mathlib

/-!
Shallow embedding of the navaz-alani/hotel repository (Go) in Lean 4.

Packages embedded:
* package date   (date.go): Date, MonthToStr, New, isLeapYear, IsValid
* package room   (room.go): Room, NewRoom, NewRoomFromRecord, AddAttribute, Satisfies
* package hotel  (hotel.go): Hotel, NewHotelFromData, loadRooms, loadAttributes

Go machine values are modelled as Nat (uint with explicit bounds where
overflow matters), Go strings as String, Go maps with struct-valued keys
as lists maintained key-unique, errors as Option String or Except String,
and a Go runtime panic as an explicit outcome constructor.
-/

namespace date

/-- Go struct Date: Day, Month, Year, all uint. -/
structure Date where
  day : Nat
  month : Nat
  year : Nat
deriving DecidableEq, Repr

/-- Go constant InvalidMonth. -/
def InvalidMonth : String := "INVALID_MONTH"

/-- Translation of date.MonthToStr. The Go switch has cases for Jan..Dec
except May, which is absent in the source and therefore falls to the
default branch. -/
def MonthToStr (m : Nat) : String :=
  if m = 1 then "January"
  else if m = 2 then "February"
  else if m = 3 then "March"
  else if m = 4 then "April"
  else if m = 6 then "June"
  else if m = 7 then "July"
  else if m = 8 then "August"
  else if m = 9 then "September"
  else if m = 10 then "October"
  else if m = 11 then "November"
  else if m = 12 then "December"
  else InvalidMonth

/-- Translation of date.isLeapYear. -/
def isLeapYear (y : Nat) : Bool :=
  if y % 400 = 0 then true
  else if y % 100 = 0 then false
  else if y % 4 = 0 then true
  else false

/-- Translation of the method Date.IsValid. Returns none when the Go
method returns a nil error, and some msg for the error message otherwise.
The Go switch declares `var ub uint` (zero value 0); the February case
performs its own early-return checks but never assigns ub, so control
that falls out of the February case reaches the final `day > ub` check
with ub = 0. -/
def Date.IsValid (d : Date) : Option String :=
  if d.day = 0 || d.day > 31 then
    some ("expected day (" ++ toString d.day ++ ") to be between 0 and 31 (inclusive)")
  else if d.month = 0 || d.month > 12 then
    some ("expected month (" ++ toString d.month ++ ") to be between 0 and 12 (inclusive)")
  else
    let isLeap := isLeapYear d.year
    let febEarly : Option String :=
      if d.month = 2 then
        if isLeap then
          if d.day > 29 then
            some ("day (" ++ toString d.day ++ ") greater than 29 in leap year ("
              ++ toString d.year ++ ")")
          else none
        else
          if d.day > 28 then
            some ("day (" ++ toString d.day ++ ") greater than 28 in non-leap year ("
              ++ toString d.year ++ ")")
          else none
      else none
    match febEarly with
    | some e => some e
    | none =>
      let ub : Nat :=
        if d.month = 2 then 0
        else if d.month = 1 || d.month = 3 || d.month = 5 || d.month = 7
            || d.month = 8 || d.month = 10 || d.month = 12 then 31
        else 30
      if d.day > ub then
        some ("expected day (" ++ toString d.day ++ ") to be at most "
          ++ toString ub ++ " for month " ++ MonthToStr d.month)
      else none

/-- Translation of date.New. The Go source contains
`if !(1 <= month && month <= 12) {}` with an empty body, a no-op, so the
result is determined by IsValid alone. -/
def New (year month day : Nat) : Except String Date :=
  let d : Date := { day := day, month := month, year := year }
  match d.IsValid with
  | some e => Except.error ("invalid date: " ++ e)
  | none => Except.ok d

/-- The true length of a month, stated from the spec's words: leap iff
divisible by 400, else not leap if divisible by 100, else leap if
divisible by 4; used only to state claims, never by the embedded code. -/
def specMonthLength (year month : Nat) : Nat :=
  if month = 2 then (if isLeapYear year then 29 else 28)
  else if month = 1 || month = 3 || month = 5 || month = 7
      || month = 8 || month = 10 || month = 12 then 31
  else 30

end date

namespace room

/-- The three room-state string constants of the Go source. -/
def roomStates : List String := ["OCCUPIED", "UNAVAILABLE", "FREE"]

/-- Go struct Room: id (uint room number), price (uint), state (string),
attrs (a map with unit values, i.e. a set of attribute strings). The
sync.RWMutex field is a concurrency artifact and is not modelled. The
attribute set is modelled as a key-unique list; only membership is
observable. -/
structure Room where
  id : Nat
  price : Nat
  state : String
  attrs : List String
deriving DecidableEq, Repr

/-- Insertion into the attribute set: Go assignment into a map, a no-op
on a key already present. -/
def insertAttr (a : String) (s : List String) : List String :=
  if a ∈ s then s else s ++ [a]

/-- Translation of room.NewRoom: zero-value price and state, empty
attribute set. -/
def NewRoom (id : Nat) : Room :=
  { id := id, price := 0, state := "", attrs := [] }

/-- Character-level worker for Go strings.Split(s, one-character sep). -/
def splitOnCharAux (sep : Char) : List Char → List Char → List (List Char)
  | [], acc => [acc.reverse]
  | c :: rest, acc =>
    if c = sep then acc.reverse :: splitOnCharAux sep rest []
    else splitOnCharAux sep rest (c :: acc)

/-- Model of Go strings.Split(s, comma): the pieces of s around each
occurrence of the comma; the empty string yields one empty piece. -/
def splitOnComma (s : String) : List String :=
  (splitOnCharAux ',' s.data []).map String.mk

/-- Model of Go strconv.ParseUint(s, 10, 64): succeeds exactly on a
nonempty all-digit string whose value fits in 64 bits. -/
def parseUint (s : String) : Option Nat :=
  let cs := s.data
  if cs.isEmpty then none
  else if cs.all Char.isDigit then
    let n := cs.foldl (fun acc c => acc * 10 + (c.toNat - 48)) 0
    if n < 2 ^ 64 then some n else none
  else none

/-- Translation of room.NewRoomFromRecord. The validAttributes parameter
appears in the Go signature but is never read in the body. The record is
id, price, state, comma-separated attribute list, in that order. -/
def NewRoomFromRecord (record : List String) (validAttributes : List String) :
    Except String Room :=
  if record.length ≠ 4 then
    Except.error "invalid record: expected 4 entries"
  else
    let idStr := record.getD 0 ""
    let priceStr := record.getD 1 ""
    let stateStr := record.getD 2 ""
    let attrsStr := record.getD 3 ""
    match parseUint idStr with
    | none => Except.error ("invalid record (id: '" ++ idStr ++ "'): parse error")
    | some id64 =>
      match parseUint priceStr with
      | none => Except.error ("invalid record (price: '" ++ priceStr ++ "'): parse error")
      | some price64 =>
        if stateStr = "OCCUPIED" || stateStr = "UNAVAILABLE" || stateStr = "FREE" then
          let roomAttrs := (splitOnComma attrsStr).foldl (fun s a => insertAttr a s) []
          Except.ok { id := id64, price := price64, state := stateStr, attrs := roomAttrs }
        else
          Except.error ("invalid record (state: '" ++ stateStr ++ ";): unrecognized state")

/-- Translation of the method Room.AddAttribute. -/
def Room.AddAttribute (r : Room) (attr : String) : Room :=
  { r with attrs := insertAttr attr r.attrs }

/-- Translation of the method Room.Satisfies: the loop returns false on
the first attribute missing from the set, else true. -/
def Room.Satisfies (r : Room) (attrs : List String) : Bool :=
  attrs.all (fun a => a ∈ r.attrs)

end room

namespace hotel

open room

/-- Go struct Hotel: numRooms (uint), rooms (map from room number to
Room, modelled as a key-unique association list), roomAttrs (slice of
attribute strings). The mutex is not modelled. -/
structure Hotel where
  numRooms : Nat
  rooms : List (Nat × Room)
  roomAttrs : List String
deriving DecidableEq, Repr

/-- The outcome of running a Go function that can panic: a normal return
or a runtime panic. -/
inductive GoResult (α : Type) where
  | ret (a : α)
  | panicked (msg : String)
deriving DecidableEq, Repr

/-- The Go runtime message for dereferencing a nil pointer. -/
def nilPointerPanic : String :=
  "runtime error: invalid memory address or nil pointer dereference"

/-- Assignment rooms[k] = v into a Go map, modelled on the key-unique
association list: any binding of k is removed and (k, v) is bound. -/
def insertRoom (k : Nat) (v : Room) (m : List (Nat × Room)) : List (Nat × Room) :=
  m.filter (fun p => p.1 ≠ k) ++ [(k, v)]

/-- Map lookup rooms[k] on the association list. -/
def lookupRoom (k : Nat) : List (Nat × Room) → Option Room
  | [] => none
  | p :: rest => if p.1 = k then some p.2 else lookupRoom k rest

/-- The number of bindings of key k in the association list; 1 for every
key present in a well-formed map. -/
def countId (k : Nat) (m : List (Nat × Room)) : Nat :=
  (m.filter (fun p => p.1 = k)).length

/-- The merge loop at the end of loadRooms: for k, v range over the
parsed rooms, h.rooms[k] = v. -/
def mergeRooms (old : List (Nat × Room)) (parsed : List (Nat × Room)) :
    List (Nat × Room) :=
  parsed.foldl (fun m p => insertRoom p.1 p.2 m) old

/-- A room-data source as seen through os.Open and csv.Reader.Read:
an optional open error, the successfully read records (the first is the
header), and an optional read-level error hit after those records and
before EOF. -/
structure RoomSource where
  openErr : Option String
  rows : List (List String)
  readErr : Option String
deriving DecidableEq, Repr

/-- An attribute-data source as seen through os.Open and bufio.Scanner:
an optional open error and the scanned lines. -/
structure AttrSource where
  openErr : Option String
  lines : List String
deriving DecidableEq, Repr

/-- Character-level worker for Go strings.Split(s, space-tab): scans for
the two-character separator left to right. -/
def splitOnSpaceTabAux : List Char → List Char → List (List Char)
  | [], acc => [acc.reverse]
  | [c], acc => [(c :: acc).reverse]
  | c1 :: c2 :: rest, acc =>
    if c1 = ' ' && c2 = '\t' then acc.reverse :: splitOnSpaceTabAux rest []
    else splitOnSpaceTabAux (c2 :: rest) (c1 :: acc)

/-- Model of Go strings.Split(s, space-tab), the separator string the
source passes: the pieces of s around each occurrence of a space
directly followed by a tab. -/
def splitOnSpaceTab (s : String) : List String :=
  (splitOnSpaceTabAux s.data []).map String.mk

/-- Outcome of the record loop of loadRooms over the post-header rows. -/
inductive RowsOutcome where
  | done (parsed : List (Nat × Room))
  | fatal (msg : String)
  | npe
deriving DecidableEq, Repr

/-- The record loop of loadRooms: each record is parsed with
NewRoomFromRecord; on a parse error the loop returns a fatal error when
strict is true, and otherwise the Go code goes on to call room.ID() on
the nil room pointer, a nil-pointer dereference panic (RowsOutcome.npe);
on success the room is entered into the transient map. -/
def loadRoomsRows (strict : Bool) (vocab : List String) :
    List (List String) → List (Nat × Room) → RowsOutcome
  | [], acc => RowsOutcome.done acc
  | rec :: rest, acc =>
    match NewRoomFromRecord rec vocab with
    | Except.ok rm => loadRoomsRows strict vocab rest (insertRoom rm.id rm acc)
    | Except.error e =>
      if strict then RowsOutcome.fatal ("load err: room parse err: " ++ e)
      else RowsOutcome.npe

/-- Translation of the method Hotel.loadRooms. Returns the state of the
receiver after the call together with the returned error; a nil-pointer
dereference is the panicked outcome. The first successfully read record
(the header) is skipped; a read-level error is fatal; the transient map
is merged into the hotel only after the whole source was consumed. -/
def loadRooms (h : Hotel) (src : RoomSource) (strict : Bool) :
    GoResult (Hotel × Option String) :=
  match src.openErr with
  | some e => GoResult.ret (h, some ("rooms load err: " ++ e))
  | none =>
    match loadRoomsRows strict h.roomAttrs (src.rows.drop 1) [] with
    | RowsOutcome.npe => GoResult.panicked nilPointerPanic
    | RowsOutcome.fatal e => GoResult.ret (h, some e)
    | RowsOutcome.done parsed =>
      match src.readErr with
      | some e => GoResult.ret (h, some ("load err [fatal]: " ++ e))
      | none => GoResult.ret ({ h with rooms := mergeRooms h.rooms parsed }, none)

/-- Translation of the method Hotel.loadAttributes. Each scanned line is
split on the literal two-character string consisting of a space followed
by a tab (the Go code passes the separator string of space-tab to
strings.Split), the first piece is the attribute, lines whose attribute
is empty or exactly a hash sign are skipped, and surviving attributes
are appended in order. -/
def loadAttributes (h : Hotel) (src : AttrSource) : Hotel × Option String :=
  match src.openErr with
  | some e => (h, some ("attributes load err: " ++ e))
  | none =>
    let newAttrs := src.lines.filterMap (fun line =>
      let attr := (splitOnSpaceTab line).headD ""
      if attr = "" || attr = "#" then none else some attr)
    ({ h with roomAttrs := h.roomAttrs ++ newAttrs }, none)

/-- Translation of hotel.NewHotelFromData: a fresh hotel, attributes
loaded first, then rooms; numRooms is set from the final mapping; any
loader error aborts with that error and no hotel. -/
def NewHotelFromData (attrSrc : AttrSource) (roomSrc : RoomSource) (strict : Bool) :
    GoResult (Except String Hotel) :=
  let hotel : Hotel := { numRooms := 0, rooms := [], roomAttrs := [] }
  match loadAttributes hotel attrSrc with
  | (_, some e) => GoResult.ret (Except.error e)
  | (h1, none) =>
    match loadRooms h1 roomSrc strict with
    | GoResult.panicked m => GoResult.panicked m
    | GoResult.ret (_, some e) => GoResult.ret (Except.error e)
    | GoResult.ret (h2, none) =>
      GoResult.ret (Except.ok { h2 with numRooms := h2.rooms.length })

/-- The parsed room of a record when NewRoomFromRecord succeeds. -/
def parseOk (vocab : List String) (rec : List String) : Option Room :=
  match NewRoomFromRecord rec vocab with
  | Except.ok rm => some rm
  | Except.error _ => none

/-- The parsed room of the record with id k occurring last in file
order, stated from the spec's words; used only to state claims about
loadRooms. -/
def lastWithId (vocab : List String) (k : Nat) : List (List String) → Option Room
  | [] => none
  | rec :: rest =>
    match lastWithId vocab k rest with
    | some rm => some rm
    | none =>
      match parseOk vocab rec with
      | some rm => if rm.id = k then some rm else none
      | none => none

end hotel

namespace claims

open room hotel

/-- A freshly constructed empty hotel, the state NewHotelFromData starts
from. -/
def emptyHotel : Hotel := { numRooms := 0, rooms := [], roomAttrs := [] }

/-- An attribute source with no lines. -/
def emptyAttrSrc : AttrSource := { openErr := none, lines := [] }

/-- Room source with a header, one well-formed record and one record
with a non-numeric price. -/
def c1RoomSrc : RoomSource :=
  { openErr := none,
    rows := [["id", "price", "state", "attributes"],
             ["1", "100", "FREE", "wifi"],
             ["2", "abc", "FREE", "wifi"]],
    readErr := none }

/-- Attribute source with a comment line, a blank line, and a line with
two space-separated words. -/
def c3Src : AttrSource :=
  { openErr := none, lines := ["# comment", "", "view  ocean"] }

/-- A well-formed room record. -/
def c5Record : List String := ["3", "50", "OCCUPIED", "wifi"]

/-- The room parsed from c5Record. -/
def c5Room : Room := { id := 3, price := 50, state := "OCCUPIED", attrs := ["wifi"] }

/-- A room source whose open fails. -/
def c6Src : RoomSource :=
  { openErr := some "no such file", rows := [], readErr := none }

/-- A hotel already holding a room under id 9. -/
def c7Hotel : Hotel :=
  { numRooms := 1, rooms := [(9, NewRoom 9)], roomAttrs := [] }

/-- Room source with a header and two well-formed records sharing id 7. -/
def c7Src : RoomSource :=
  { openErr := none,
    rows := [["id", "price", "state", "attributes"],
             ["7", "100", "FREE", "wifi"],
             ["7", "200", "OCCUPIED", "spa"]],
    readErr := none }

/-- The room parsed from the last id-7 record of c7Src. -/
def c7Room : Room := { id := 7, price := 200, state := "OCCUPIED", attrs := ["spa"] }

/-- A room with two attributes. -/
def c8Room : Room := { id := 1, price := 0, state := "FREE", attrs := ["a", "b"] }

/-- A room with one attribute. -/
def c10Room : Room := { id := 1, price := 0, state := "", attrs := ["x"] }

/-- A room record whose attribute field is not in any vocabulary. -/
def c9Record : List String := ["4", "75", "FREE", "penthouse"]

end claims

section theorems

open date room hotel claims

/-- Helper: the inserted attribute is a member of the result of
insertAttr. -/
theorem mem_insertAttr (a : String) (s : List String) : a ∈ insertAttr a s := by
  unfold insertAttr
  split
  · assumption
  · simp

/-- Helper: inserting an attribute already present is the identity. -/
theorem insertAttr_of_mem {a : String} {s : List String} (h : a ∈ s) :
    insertAttr a s = s := by
  unfold insertAttr
  simp [h]

/-- C1: the spec and the loader's own documentation say a record-level
parse error under strict = false is silently skipped; on a source with a
header, one well-formed record and one record with non-numeric price,
the code instead calls ID() on the nil room pointer returned together
with the parse error, a nil-pointer dereference panic, and no Registry
with only the well-formed room is produced. -/
theorem c1_nonstrict_malformed_record_panics :
    NewHotelFromData emptyAttrSrc c1RoomSrc false
      = GoResult.panicked nilPointerPanic := rfl

/-- C2: the date validator's switch leaves the upper bound variable at
its zero value 0 for February, so a perfectly valid February date such
as 2021-02-10 is rejected by New with the message naming bound 0, even
though 10 is within February's true length of 28 for the non-leap year
2021; the claim's validity equivalence fails on every February date. -/
theorem c2_february_always_rejected :
    New 2021 2 10
      = Except.error "invalid date: expected day (10) to be at most 0 for month February"
    ∧ 1 ≤ 2 ∧ 2 ≤ 12 ∧ 1 ≤ 10 ∧ 10 ≤ specMonthLength 2021 2 :=
  ⟨rfl, by decide, by decide, by decide, by decide⟩

/-- C3: the attribute loader splits each line on the literal
space-then-tab two-character separator, not on whitespace, so the line
of a hash sign and the word comment survives whole and the line of the
word view, two spaces, and the word ocean contributes itself whole
rather than its first whitespace token. -/
theorem c3_attribute_lines_not_tokenized :
    loadAttributes emptyHotel c3Src
      = ({ numRooms := 0, rooms := [], roomAttrs := ["# comment", "view  ocean"] }, none)
    ∧ "view" ∉ (loadAttributes emptyHotel c3Src).1.roomAttrs :=
  ⟨rfl, by decide⟩

/-- C4: MonthToStr's switch is missing the May case, so the in-range
month 5 falls to the default branch and yields the invalid-month
sentinel, contradicting the claim that every month in 1..12 maps to its
full English name; months 2 and 13 behave as claimed. -/
theorem c4_monthtostr_missing_may :
    MonthToStr 5 = "INVALID_MONTH" ∧ 1 ≤ 5 ∧ 5 ≤ 12
    ∧ MonthToStr 2 = "February" ∧ MonthToStr 13 = "INVALID_MONTH" :=
  ⟨rfl, by decide, by decide, rfl, rfl⟩

/-- C5 counterexample: NewRoom leaves the state field at the Go zero
value, the empty string, which is not a member of the state enum, so not
every construction path yields an enum state. -/
theorem c5_newroom_state_outside_enum :
    (NewRoom 1).state ∉ roomStates := by decide

/-- C5 amended: every room produced by a successful NewRoomFromRecord
has a state in the enum, and AddAttribute, the only mutating core
operation, never changes the state field; NewRoom alone yields the
zero-value empty state outside the enum. -/
theorem c5_record_room_state_in_enum
    (rec vocab : List String) (rm : Room)
    (h : NewRoomFromRecord rec vocab = Except.ok rm) :
    rm.state ∈ roomStates ∧ ∀ a, (rm.AddAttribute a).state = rm.state := by
  constructor
  · unfold NewRoomFromRecord at h
    split at h
    · exact absurd h (by simp)
    · dsimp only at h
      split at h
      · exact absurd h (by simp)
      · split at h
        · exact absurd h (by simp)
        · split at h
          · rename_i hstate
            have hrm := Except.ok.inj h
            simp only [Bool.or_eq_true, decide_eq_true_eq] at hstate
            rw [← hrm]
            simp only [roomStates]
            have hgoal : rec.getD 2 "" ∈ ["OCCUPIED", "UNAVAILABLE", "FREE"] := by
              rcases hstate with (ha | hb) | hc
              · rw [ha]; simp
              · rw [hb]; simp
              · rw [hc]; simp
            exact hgoal
          · exact absurd h (by simp)
  · intro a
    rfl

/-- C5 witness: instantiating the amended statement at a concrete
well-formed record. -/
theorem c5_witness :
    NewRoomFromRecord c5Record [] = Except.ok c5Room
    ∧ (c5Room.state ∈ roomStates ∧ ∀ a, (c5Room.AddAttribute a).state = c5Room.state) :=
  ⟨rfl, c5_record_room_state_in_enum c5Record [] c5Room rfl⟩

/-- C6: whenever a loader returns an error, the hotel it was loading
into is left exactly as it was — the room mapping is never partially
updated — and NewHotelFromData propagates the error of either loader,
returning that error and no hotel. -/
theorem c6_failed_load_is_atomic :
    (∀ (h : Hotel) (src : RoomSource) (strict : Bool) (h' : Hotel) (e : String),
      loadRooms h src strict = GoResult.ret (h', some e) → h' = h)
    ∧ (∀ (h : Hotel) (src : AttrSource) (h' : Hotel) (e : String),
      loadAttributes h src = (h', some e) → h' = h)
    ∧ (∀ (aSrc : AttrSource) (rSrc : RoomSource) (strict : Bool) (h1 : Hotel) (e : String),
      loadAttributes emptyHotel aSrc = (h1, some e) →
      NewHotelFromData aSrc rSrc strict = GoResult.ret (Except.error e))
    ∧ (∀ (aSrc : AttrSource) (rSrc : RoomSource) (strict : Bool) (h1 h2 : Hotel) (e : String),
      loadAttributes emptyHotel aSrc = (h1, none) →
      loadRooms h1 rSrc strict = GoResult.ret (h2, some e) →
      NewHotelFromData aSrc rSrc strict = GoResult.ret (Except.error e)) := by
  refine ⟨?_, ?_, ?_, ?_⟩
  · intro h src strict h' e heq
    unfold loadRooms at heq
    cases hopen : src.openErr with
    | some msg =>
      rw [hopen] at heq
      simp only [GoResult.ret.injEq, Prod.mk.injEq] at heq
      exact heq.1.symm
    | none =>
      rw [hopen] at heq
      cases hrows : loadRoomsRows strict h.roomAttrs (src.rows.drop 1) [] with
      | npe =>
        rw [hrows] at heq
        exact absurd heq (by simp)
      | fatal msg =>
        rw [hrows] at heq
        simp only [GoResult.ret.injEq, Prod.mk.injEq] at heq
        exact heq.1.symm
      | done parsed =>
        rw [hrows] at heq
        cases hread : src.readErr with
        | some msg =>
          rw [hread] at heq
          simp only [GoResult.ret.injEq, Prod.mk.injEq] at heq
          exact heq.1.symm
        | none =>
          rw [hread] at heq
          simp only [GoResult.ret.injEq, Prod.mk.injEq] at heq
          exact absurd heq.2 (by simp)
  · intro h src h' e heq
    unfold loadAttributes at heq
    cases hopen : src.openErr with
    | some msg =>
      rw [hopen] at heq
      simp only [Prod.mk.injEq] at heq
      exact heq.1.symm
    | none =>
      rw [hopen] at heq
      simp only [Prod.mk.injEq] at heq
      exact absurd heq.2 (by simp)
  · intro aSrc rSrc strict h1 e hla
    unfold NewHotelFromData
    dsimp only
    rw [show loadAttributes { numRooms := 0, rooms := [], roomAttrs := [] } aSrc
          = (h1, some e) from hla]
  · intro aSrc rSrc strict h1 h2 e hla hlr
    unfold NewHotelFromData
    dsimp only
    rw [show loadAttributes { numRooms := 0, rooms := [], roomAttrs := [] } aSrc
          = (h1, none) from hla]
    dsimp only
    rw [hlr]

/-- C6 witness: a room source whose open fails leaves a concrete hotel
unchanged, and NewHotelFromData built over that failing source returns
the error and no hotel. -/
theorem c6_witness :
    loadRooms emptyHotel c6Src false
      = GoResult.ret (emptyHotel, some "rooms load err: no such file")
    ∧ emptyHotel = emptyHotel
    ∧ loadAttributes emptyHotel emptyAttrSrc = (emptyHotel, none)
    ∧ NewHotelFromData emptyAttrSrc c6Src false
      = GoResult.ret (Except.error "rooms load err: no such file") :=
  ⟨rfl,
   c6_failed_load_is_atomic.1 emptyHotel c6Src false emptyHotel
     "rooms load err: no such file" rfl,
   rfl,
   c6_failed_load_is_atomic.2.2.2 emptyAttrSrc c6Src false emptyHotel emptyHotel
     "rooms load err: no such file" rfl rfl⟩

/-- C8: Satisfies returns true exactly when every requested attribute is
in the room's attribute set, and the empty request is always satisfied. -/
theorem c8_satisfies_iff_all_present (r : Room) (attrs : List String) :
    (r.Satisfies attrs = true ↔ ∀ a ∈ attrs, a ∈ r.attrs)
    ∧ r.Satisfies [] = true := by
  constructor
  · simp [Room.Satisfies, List.all_eq_true]
  · rfl

/-- C8 witness: the equivalence instantiated at a concrete room and
request list. -/
theorem c8_witness :
    (c8Room.Satisfies ["a", "b"] = true ↔ ∀ a ∈ ["a", "b"], a ∈ c8Room.attrs)
    ∧ c8Room.Satisfies [] = true :=
  c8_satisfies_iff_all_present c8Room ["a", "b"]

/-- C9: the vocabulary argument of NewRoomFromRecord is never read, so
any two vocabularies yield the same outcome on every record. -/
theorem c9_vocabulary_has_no_influence (record v1 v2 : List String) :
    NewRoomFromRecord record v1 = NewRoomFromRecord record v2 := rfl

/-- C9 witness: a record with an attribute unknown to either vocabulary
parses identically under both. -/
theorem c9_witness :
    NewRoomFromRecord c9Record ["wifi"] = NewRoomFromRecord c9Record [] :=
  c9_vocabulary_has_no_influence c9Record ["wifi"] []

/-- C10: AddAttribute is idempotent; adding an attribute that is already
present returns the identical room, and repeating an AddAttribute leaves
every subsequent Satisfies answer unchanged. -/
theorem c10_addattribute_idempotent (r : Room) (a : String) :
    (r.AddAttribute a).AddAttribute a = r.AddAttribute a
    ∧ (a ∈ r.attrs → r.AddAttribute a = r)
    ∧ ∀ qs, ((r.AddAttribute a).AddAttribute a).Satisfies qs
        = (r.AddAttribute a).Satisfies qs := by
  have hidem : (r.AddAttribute a).AddAttribute a = r.AddAttribute a := by
    show ({ r with attrs := insertAttr a r.attrs } : Room).AddAttribute a
        = { r with attrs := insertAttr a r.attrs }
    unfold Room.AddAttribute
    simp [insertAttr_of_mem (mem_insertAttr a r.attrs)]
  refine ⟨hidem, ?_, ?_⟩
  · intro hmem
    unfold Room.AddAttribute
    simp [insertAttr_of_mem hmem]
  · intro qs
    rw [hidem]

/-- C10 witness: the already-present hypothesis discharged at a concrete
room. -/
theorem c10_witness :
    "x" ∈ c10Room.attrs ∧ c10Room.AddAttribute "x" = c10Room :=
  ⟨by decide, (c10_addattribute_idempotent c10Room "x").2.1 (by decide)⟩

/-- Helper: a key absent from the key list is not found. -/
theorem lookupRoom_eq_none {k : Nat} {m : List (Nat × Room)}
    (h : k ∉ m.map Prod.fst) : lookupRoom k m = none := by
  induction m with
  | nil => rfl
  | cons p rest ih =>
    simp only [List.map_cons, List.mem_cons] at h
    push_neg at h
    rw [lookupRoom, if_neg (fun hk => h.1 hk.symm)]
    exact ih h.2

/-- Helper: a found key is in the key list. -/
theorem mem_keys_of_lookupRoom {k : Nat} {m : List (Nat × Room)} {v : Room}
    (h : lookupRoom k m = some v) : k ∈ m.map Prod.fst := by
  induction m with
  | nil => exact absurd h (by simp [lookupRoom])
  | cons p rest ih =>
    rw [lookupRoom] at h
    by_cases hp : p.1 = k
    · simp [hp]
    · rw [if_neg hp] at h
      simp [ih h]

/-- Helper: a key found before an append is found in the append. -/
theorem lookupRoom_append_some {k : Nat} {l1 : List (Nat × Room)} {v : Room}
    (h : lookupRoom k l1 = some v) (l2 : List (Nat × Room)) :
    lookupRoom k (l1 ++ l2) = some v := by
  induction l1 with
  | nil => exact absurd h (by simp [lookupRoom])
  | cons p rest ih =>
    rw [List.cons_append, lookupRoom]
    rw [lookupRoom] at h
    by_cases hp : p.1 = k
    · rwa [if_pos hp] at h ⊢
    · rw [if_neg hp] at h ⊢
      exact ih h

/-- Helper: a key absent from the first list is looked up in the second. -/
theorem lookupRoom_append_none {k : Nat} {l1 : List (Nat × Room)}
    (h : lookupRoom k l1 = none) (l2 : List (Nat × Room)) :
    lookupRoom k (l1 ++ l2) = lookupRoom k l2 := by
  induction l1 with
  | nil => rfl
  | cons p rest ih =>
    rw [List.cons_append, lookupRoom]
    rw [lookupRoom] at h
    by_cases hp : p.1 = k
    · rw [if_pos hp] at h; exact absurd h (by simp)
    · rw [if_neg hp] at h ⊢
      exact ih h

/-- Helper: removing the bindings of k makes k unfindable. -/
theorem lookupRoom_filter_self (k : Nat) (m : List (Nat × Room)) :
    lookupRoom k (m.filter (fun p => p.1 ≠ k)) = none := by
  induction m with
  | nil => rfl
  | cons p rest ih =>
    rw [List.filter_cons]
    split
    · rename_i hcond
      rw [lookupRoom, if_neg (of_decide_eq_true hcond)]
      exact ih
    · exact ih

/-- Helper: removing the bindings of k does not affect other keys. -/
theorem lookupRoom_filter_ne {k k' : Nat} (h : k' ≠ k) (m : List (Nat × Room)) :
    lookupRoom k' (m.filter (fun p => p.1 ≠ k)) = lookupRoom k' m := by
  induction m with
  | nil => rfl
  | cons p rest ih =>
    rw [List.filter_cons]
    split
    · rw [lookupRoom, lookupRoom]
      by_cases hp' : p.1 = k'
      · rw [if_pos hp', if_pos hp']
      · rw [if_neg hp', if_neg hp']
        exact ih
    · rename_i hcond
      have hp : p.1 = k := by
        by_contra hc
        exact hcond (decide_eq_true hc)
      have hp' : p.1 ≠ k' := fun hc => h (hc.symm.trans hp)
      rw [lookupRoom, if_neg hp']
      exact ih

/-- Helper: the inserted binding is found. -/
theorem lookupRoom_insert_self (k : Nat) (v : Room) (m : List (Nat × Room)) :
    lookupRoom k (insertRoom k v m) = some v := by
  rw [insertRoom, lookupRoom_append_none (lookupRoom_filter_self k m)]
  rw [lookupRoom, if_pos rfl]

/-- Helper: inserting one key does not affect lookups of another. -/
theorem lookupRoom_insert_ne {k k' : Nat} (h : k' ≠ k) (v : Room)
    (m : List (Nat × Room)) :
    lookupRoom k' (insertRoom k v m) = lookupRoom k' m := by
  rw [insertRoom]
  cases hl : lookupRoom k' (m.filter (fun p => p.1 ≠ k)) with
  | some w =>
    rw [lookupRoom_append_some hl]
    rw [lookupRoom_filter_ne h] at hl
    exact hl.symm
  | none =>
    rw [lookupRoom_append_none hl]
    rw [lookupRoom_filter_ne h] at hl
    rw [lookupRoom, if_neg (fun hc => h hc.symm), lookupRoom]
    exact hl.symm

/-- Helper: after inserting k there is exactly one binding of k. -/
theorem countId_insert_self (k : Nat) (v : Room) (m : List (Nat × Room)) :
    countId k (insertRoom k v m) = 1 := by
  rw [countId, insertRoom, List.filter_append, List.filter_filter]
  have hnil : (m.filter (fun p => decide (p.1 = k) && decide (p.1 ≠ k))) = [] := by
    rw [List.filter_eq_nil_iff]
    intro p _
    by_cases hp : p.1 = k <;> simp [hp]
  rw [hnil]
  simp

/-- Helper: inserting k does not change the number of bindings of
another key. -/
theorem countId_insert_ne {k k' : Nat} (h : k' ≠ k) (v : Room)
    (m : List (Nat × Room)) :
    countId k' (insertRoom k v m) = countId k' m := by
  rw [countId, countId, insertRoom, List.filter_append, List.filter_filter]
  have hsingle : (([(k, v)] : List (Nat × Room)).filter (fun p => p.1 = k')) = [] := by
    simp [Ne.symm h]
  rw [hsingle, List.append_nil]
  congr 1
  apply List.filter_congr
  intro p _
  by_cases hp : p.1 = k'
  · have hpk : p.1 ≠ k := fun hc => h (hp.symm.trans hc)
    simp [hp, hpk, h]
  · simp [hp]

/-- Helper: insertion keeps the key list duplicate-free. -/
theorem keys_insertRoom_nodup {m : List (Nat × Room)}
    (hnd : (m.map Prod.fst).Nodup) (k : Nat) (v : Room) :
    ((insertRoom k v m).map Prod.fst).Nodup := by
  rw [insertRoom, List.map_append, List.nodup_append]
  refine ⟨?_, by simp, ?_⟩
  · exact hnd.sublist ((List.filter_sublist m).map Prod.fst)
  · intro x hx
    simp only [List.mem_map, List.mem_filter] at hx
    obtain ⟨p, ⟨_, hpk⟩, hpx⟩ := hx
    simp only [List.map_cons, List.map_nil, List.mem_singleton]
    intro hc
    rw [hc] at hpx
    exact (decide_eq_true_eq.mp hpk) hpx

/-- Helper: merging a batch that does not bind k leaves lookups of k
unchanged. -/
theorem lookupRoom_merge_none {parsed : List (Nat × Room)} {k : Nat}
    (h : lookupRoom k parsed = none) :
    ∀ old, lookupRoom k (mergeRooms old parsed) = lookupRoom k old := by
  induction parsed with
  | nil => intro old; rfl
  | cons p rest ih =>
    intro old
    rw [lookupRoom] at h
    by_cases hp : p.1 = k
    · rw [if_pos hp] at h; exact absurd h (by simp)
    · rw [if_neg hp] at h
      show lookupRoom k (mergeRooms (insertRoom p.1 p.2 old) rest) = _
      rw [ih h, lookupRoom_insert_ne (fun hc => hp hc.symm)]

/-- Helper: merging a duplicate-free batch that binds k to v makes k
look up to v, whatever the previous contents. -/
theorem lookupRoom_merge_some {parsed : List (Nat × Room)}
    (hnd : (parsed.map Prod.fst).Nodup) {k : Nat} {v : Room}
    (h : lookupRoom k parsed = some v) :
    ∀ old, lookupRoom k (mergeRooms old parsed) = some v := by
  induction parsed with
  | nil => exact absurd h (by simp [lookupRoom])
  | cons p rest ih =>
    intro old
    simp only [List.map_cons, List.nodup_cons] at hnd
    rw [lookupRoom] at h
    show lookupRoom k (mergeRooms (insertRoom p.1 p.2 old) rest) = some v
    by_cases hp : p.1 = k
    · rw [if_pos hp] at h
      have hrest : lookupRoom k rest = none :=
        lookupRoom_eq_none (fun hc => hnd.1 (hp ▸ hc))
      rw [lookupRoom_merge_none hrest, hp, lookupRoom_insert_self]
      exact h
    · rw [if_neg hp] at h
      exact ih hnd.2 h (insertRoom p.1 p.2 old)

/-- Helper: merging a batch that does not bind k leaves the binding
count of k unchanged. -/
theorem countId_merge_not_mem {parsed : List (Nat × Room)} {k : Nat}
    (h : k ∉ parsed.map Prod.fst) :
    ∀ old, countId k (mergeRooms old parsed) = countId k old := by
  induction parsed with
  | nil => intro old; rfl
  | cons p rest ih =>
    intro old
    simp only [List.map_cons, List.mem_cons] at h
    push_neg at h
    show countId k (mergeRooms (insertRoom p.1 p.2 old) rest) = _
    rw [ih h.2, countId_insert_ne h.1]

/-- Helper: merging a duplicate-free batch that binds k leaves exactly
one binding of k, whatever the previous contents. -/
theorem countId_merge_mem {parsed : List (Nat × Room)}
    (hnd : (parsed.map Prod.fst).Nodup) {k : Nat}
    (h : k ∈ parsed.map Prod.fst) :
    ∀ old, countId k (mergeRooms old parsed) = 1 := by
  induction parsed with
  | nil => exact absurd h (by simp)
  | cons p rest ih =>
    intro old
    simp only [List.map_cons, List.nodup_cons] at hnd
    simp only [List.map_cons, List.mem_cons] at h
    show countId k (mergeRooms (insertRoom p.1 p.2 old) rest) = 1
    rcases h with h | h
    · have hrest : k ∉ rest.map Prod.fst := fun hc => hnd.1 (h ▸ hc)
      rw [countId_merge_not_mem hrest, ← h, countId_insert_self]
    · exact ih hnd.2 h (insertRoom p.1 p.2 old)

/-- Helper: a successful parseOk is a successful NewRoomFromRecord. -/
theorem newRoom_of_parseOk {vocab rec : List String} {rm : Room}
    (h : parseOk vocab rec = some rm) :
    NewRoomFromRecord rec vocab = Except.ok rm := by
  unfold parseOk at h
  cases hp : NewRoomFromRecord rec vocab with
  | ok r => rw [hp] at h; exact congrArg Except.ok (Option.some.inj h)
  | error e => rw [hp] at h; exact absurd h (by simp)

/-- Helper: when every post-header record parses, the record loop
completes, keeps the transient map duplicate-free, and maps each id to
the room of the last record bearing it. -/
theorem loadRoomsRows_char (strict : Bool) (vocab : List String) :
    ∀ (rows : List (List String)) (acc : List (Nat × Room)),
      (∀ rec ∈ rows, (parseOk vocab rec).isSome = true) →
      ∃ parsed, loadRoomsRows strict vocab rows acc = RowsOutcome.done parsed
        ∧ ((acc.map Prod.fst).Nodup → (parsed.map Prod.fst).Nodup)
        ∧ (∀ k rm, lastWithId vocab k rows = some rm →
            lookupRoom k parsed = some rm)
        ∧ (∀ k, lastWithId vocab k rows = none →
            lookupRoom k parsed = lookupRoom k acc) := by
  intro rows
  induction rows with
  | nil =>
    intro acc _
    refine ⟨acc, rfl, id, ?_, ?_⟩
    · intro k rm hk
      exact absurd hk (by simp [lastWithId])
    · intro k _
      rfl
  | cons rec rest ih =>
    intro acc hall
    have hrec := hall rec (by simp)
    obtain ⟨rm0, hrm0⟩ := Option.isSome_iff_exists.mp hrec
    have hnrr := newRoom_of_parseOk hrm0
    obtain ⟨parsed, hdone, hnodup, hsome, hnone⟩ :=
      ih (insertRoom rm0.id rm0 acc) (fun r hr => hall r (by simp [hr]))
    refine ⟨parsed, ?_, ?_, ?_, ?_⟩
    · rw [loadRoomsRows, hnrr]
      exact hdone
    · intro hacc
      exact hnodup (keys_insertRoom_nodup hacc rm0.id rm0)
    · intro k rm hk
      rw [lastWithId] at hk
      cases hrest : lastWithId vocab k rest with
      | some rm' =>
        rw [hrest] at hk
        dsimp only at hk
        exact hsome k rm (hrest.trans hk)
      | none =>
        rw [hrest] at hk
        dsimp only at hk
        rw [hrm0] at hk
        dsimp only at hk
        by_cases hid : rm0.id = k
        · rw [if_pos hid] at hk
          rw [hnone k hrest, ← hid, lookupRoom_insert_self]
          exact hk
        · rw [if_neg hid] at hk
          exact absurd hk (by simp)
    · intro k hk
      rw [lastWithId] at hk
      cases hrest : lastWithId vocab k rest with
      | some rm' =>
        rw [hrest] at hk
        dsimp only at hk
        exact absurd hk (by simp)
      | none =>
        rw [hrest] at hk
        dsimp only at hk
        rw [hrm0] at hk
        dsimp only at hk
        by_cases hid : rm0.id = k
        · rw [if_pos hid] at hk
          exact absurd hk (by simp)
        · rw [if_neg hid] at hk
          rw [hnone k hrest, lookupRoom_insert_ne (fun hc => hid hc.symm)]

/-- C7: on a source whose post-header records all parse, the load
succeeds and the resulting registry holds, under any id that occurs,
exactly one room: the one parsed from the last record in file order
bearing that id, overwriting any previous entry under it, while every
id the source never binds keeps its previous entry. -/
theorem c7_duplicate_ids_last_record_wins
    (h : Hotel) (src : RoomSource) (strict : Bool) (k : Nat) (rm : Room)
    (hOpen : src.openErr = none) (hRead : src.readErr = none)
    (hParse : ∀ rec ∈ src.rows.drop 1, (parseOk h.roomAttrs rec).isSome = true)
    (hLast : lastWithId h.roomAttrs k (src.rows.drop 1) = some rm) :
    ∃ h', loadRooms h src strict = GoResult.ret (h', none)
      ∧ lookupRoom k h'.rooms = some rm
      ∧ countId k h'.rooms = 1
      ∧ ∀ k', lastWithId h.roomAttrs k' (src.rows.drop 1) = none →
          lookupRoom k' h'.rooms = lookupRoom k' h.rooms := by
  obtain ⟨parsed, hdone, hnodup, hsome, hnone⟩ :=
    loadRoomsRows_char strict h.roomAttrs (src.rows.drop 1) [] hParse
  have hpn : (parsed.map Prod.fst).Nodup := hnodup (by simp)
  have hlook : lookupRoom k parsed = some rm := hsome k rm hLast
  refine ⟨{ h with rooms := mergeRooms h.rooms parsed }, ?_, ?_, ?_, ?_⟩
  · unfold loadRooms
    rw [hOpen, hdone, hRead]
  · exact lookupRoom_merge_some hpn hlook h.rooms
  · exact countId_merge_mem hpn (mem_keys_of_lookupRoom hlook) h.rooms
  · intro k' hk'
    have hnil : lookupRoom k' parsed = none := hnone k' hk'
    exact lookupRoom_merge_none hnil h.rooms

/-- C7 witness: a source with two records under id 7; the registry ends
with exactly the second one, and the unrelated id 9 keeps its room. -/
theorem c7_witness :
    ∃ h', loadRooms c7Hotel c7Src false = GoResult.ret (h', none)
      ∧ lookupRoom 7 h'.rooms = some c7Room
      ∧ countId 7 h'.rooms = 1
      ∧ ∀ k', lastWithId c7Hotel.roomAttrs k' (c7Src.rows.drop 1) = none →
          lookupRoom k' h'.rooms = lookupRoom k' c7Hotel.rooms :=
  c7_duplicate_ids_last_record_wins c7Hotel c7Src false 7 c7Room rfl rfl
    (by decide) rfl

end theorems
